import Mathlib

/-!
Verification of the variant comparison and scoring engine of the
deep-genetic repository: a shallow embedding of the Python sources
(compare_vcf.py, somatic_analysis.py, visualize_variants.py) together
with theorems settling the specification's claims about them.
-/

namespace DeepGenetic

/-- The canonical variant identity used for matching:
(chromosome, position, reference_allele, alternate_allele). -/
abbrev VariantKey := String × Int × String × String

deriving instance DecidableEq for Except

/-! ## Normalizer (compare_vcf.py, normalize_chrom)

The Python body is a single call `chrom.replace('chr', '')`: Python's
str.replace removes every left-to-right non-overlapping occurrence of
the pattern, scanning the input once and never rescanning text it has
already produced.  `stripChrAux` embeds exactly that scan for the fixed
pattern "chr". -/

def stripChrAux : List Char → List Char
  | 'c' :: 'h' :: 'r' :: rest => stripChrAux rest
  | c :: rest => c :: stripChrAux rest
  | [] => []

/-- compare_vcf.py, normalize_chrom: `chrom.replace('chr', '')`. -/
def normalize_chrom (s : String) : String := ⟨stripChrAux s.data⟩

/-- Decides whether "chr" occurs as a contiguous substring of the
character list (same scan that Python's str.replace performs). -/
def containsChr : List Char → Bool
  | 'c' :: 'h' :: 'r' :: _ => true
  | _ :: rest => containsChr rest
  | [] => false

/-! ## Matcher (compare_vcf.py, compare_variants) -/

/-- The three classified sets returned by the matcher. -/
structure ComparisonResult where
  true_positives : Finset VariantKey
  false_positives : Finset VariantKey
  false_negatives : Finset VariantKey
deriving DecidableEq

/-- compare_vcf.py, compare_variants:
`tp = truth & query`, `fp = query - truth`, `fn = truth - query`. -/
def compare_variants (truth_variants query_variants : Finset VariantKey) :
    ComparisonResult where
  true_positives := truth_variants ∩ query_variants
  false_positives := query_variants \ truth_variants
  false_negatives := truth_variants \ query_variants

/-- A parsed record together with the auxiliary per-record data
(quality / filter / sample columns) that the key ignores. -/
structure VariantRecord where
  chrom : String
  pos : Int
  ref : String
  alt : String
  aux : String

/-- The canonical key of a record. -/
def VariantRecord.key (r : VariantRecord) : VariantKey :=
  (r.chrom, r.pos, r.ref, r.alt)

/-- The key set a list of records contributes to a Python `set`:
duplicate keys collapse to one entry. -/
def keysOf (rs : List VariantRecord) : Finset VariantKey :=
  rs.foldr (fun r s => insert r.key s) ∅

/-! ## Metrics Calculator (compare_vcf.py, calculate_metrics)

Python computes the fractions in floating point; the embedding uses ℚ,
which agrees with the source on the branch structure and the exact-zero
fallbacks the claims are about. -/

/-- compare_vcf.py, calculate_metrics. -/
def calculate_metrics (tp_count fp_count fn_count : ℕ) : ℚ × ℚ × ℚ :=
  let precisionV : ℚ :=
    if 0 < tp_count + fp_count then (tp_count : ℚ) / ((tp_count : ℚ) + (fp_count : ℚ)) else 0
  let recallV : ℚ :=
    if 0 < tp_count + fn_count then (tp_count : ℚ) / ((tp_count : ℚ) + (fn_count : ℚ)) else 0
  let f1V : ℚ :=
    if 0 < precisionV + recallV then 2 * (precisionV * recallV) / (precisionV + recallV) else 0
  (precisionV, recallV, f1V)

/-! ## Python string builtins

The source leans on three Python builtins — `str.split(sep)` for a
one-character separator, `str.strip()`, and `int(s)` — embedded here by
structural recursion on the character list so that every use evaluates
inside the kernel. -/

/-- Python `split(sep)` for a one-character separator, on characters:
`"".split(sep)` is `[""]`, and each occurrence of the separator starts a
new (possibly empty) chunk. -/
def splitChar (sep : Char) : List Char → List (List Char)
  | [] => [[]]
  | c :: rest =>
    match splitChar sep rest with
    | [] => [[]]
    | g :: gs => if c = sep then [] :: g :: gs else (c :: g) :: gs

/-- Python `s.split(sep)` for a one-character separator. -/
def pySplit (s : String) (sep : Char) : List String :=
  (splitChar sep s.data).map (fun l => ⟨l⟩)

/-- Python `s.strip()`: drop whitespace from both ends. -/
def pyStrip (s : String) : String :=
  ⟨((s.data.dropWhile Char.isWhitespace).reverse.dropWhile Char.isWhitespace).reverse⟩

/-- Value of a nonempty all-digit run, else none (the failure branch is
Python's ValueError). -/
def digitsValGo (acc : ℕ) : List Char → Option ℕ
  | [] => some acc
  | c :: rest => if c.isDigit then digitsValGo (10 * acc + (c.toNat - 48)) rest else none

/-- Digit-run value, rejecting the empty run. -/
def digitsVal? : List Char → Option ℕ
  | [] => none
  | l => digitsValGo 0 l

/-- Python `int(s)`: optional surrounding whitespace, optional sign,
then a nonempty digit run; none embeds the ValueError Python raises. -/
def pyInt? (s : String) : Option Int :=
  match (pyStrip s).data with
  | '+' :: rest => (digitsVal? rest).map Int.ofNat
  | '-' :: rest => (digitsVal? rest).map (fun n => -(n : Int))
  | l => (digitsVal? l).map Int.ofNat

/-- Python `line.startswith('#')`. -/
def startsWithHash (s : String) : Bool :=
  match s.data with
  | '#' :: _ => true
  | _ => false

/-! ## Record Parser (compare_vcf.py, parse_vcf)

The Python loop over the lines of the file: lines starting with '#' are
skipped, the line is stripped and split on tabs, lines with fewer than 5
fields are skipped, `int(fields[1])` raises ValueError on a non-numeric
position (embedded as Except.error), and one key per comma-separated
alternate allele is added to the accumulated set. -/

/-- The keys emitted for one data line once its position has parsed:
`for alt_allele in alt.split(','): variants.add((chrom, pos, ref, alt_allele))`. -/
def emitVariants (fields : List String) (pos : Int) : List VariantKey :=
  (pySplit (fields.getD 4 "") ',').map
    (fun alt_allele => (normalize_chrom (fields.getD 0 ""), pos, fields.getD 3 "", alt_allele))

/-- Processing of the tab-separated fields of one non-header line. -/
def parseFields (fields : List String) : Except Unit (List VariantKey) :=
  if fields.length < 5 then .ok []
  else
    match pyInt? (fields.getD 1 "") with
    | none => .error ()
    | some pos => .ok (emitVariants fields pos)

/-- Processing of one raw line of the file. -/
def processLine (line : String) : Except Unit (List VariantKey) :=
  if startsWithHash line then .ok []
  else parseFields (pySplit (pyStrip line) '\t')

/-- compare_vcf.py, parse_vcf on the list of lines of the file: the
accumulated `variants` set, or the first uncaught exception. -/
def parse_vcf (lines : List String) : Except Unit (Finset VariantKey) :=
  lines.foldlM
    (fun variants line =>
      (processLine line).map (fun l => l.foldl (fun s k => insert k s) variants))
    ∅

/-! ## Annotation Extractor (somatic_analysis.py, deepsomatic_scores)

The VAF column is built by
`lambda x: float(str(x).split(':')[4]) if pd.notnull(x) else 0.0` on the
tp and fp tables and by `... split(':')[-1] ...` on the fn table.  The
embedding returns the textual token handed to float(): "0.0" for a null
cell, the selected colon-token otherwise, and Except.error for the
IndexError Python raises when the tp/fp sample value has fewer than 5
colon-separated components. -/

/-- Token extraction applied to the tp and fp tables: fixed index 4. -/
def vaf_token_output (x : Option String) : Except Unit String :=
  match x with
  | none => .ok "0.0"
  | some s =>
    match (pySplit s ':').get? 4 with
    | none => .error ()
    | some t => .ok t

/-- Token extraction applied to the fn table: index -1, the last token
(`split(':')` always returns at least one element, so this never raises). -/
def vaf_token_truth (x : Option String) : Except Unit String :=
  match x with
  | none => .ok "0.0"
  | some s => .ok ((pySplit s ':').getLastD "")

/-- Modelled from the spec (no such code exists in the repository): the
Annotation Extractor contract of spec §4.3 — resolve the index of the
named field by name lookup against the declared colon-separated format
order, return the sample token at that index, and return the absent
sentinel "0.0" when the field name is missing from the order or the
sample value has fewer components than the index. -/
def vaf_by_name (format sample fieldName : String) : String :=
  match (pySplit format ':').findIdx? (fun n => n == fieldName) with
  | none => "0.0"
  | some i => (pySplit sample ':').getD i "0.0"

/-! ## Filter Stage (somatic_analysis.py) -/

/-- The columns of a VCF DataFrame row that the filter functions read. -/
structure VcfRow where
  chrom : String
  pos : Int
  filter : String
deriving DecidableEq

def MIN_REGION : Int := 5000000

def MAX_REGION : Int := 8000000

def CHROMOSOMES : List String := ["chr17"]

def VAF_THRESHOLD : ℚ := 15 / 100

/-- somatic_analysis.py, fix_output_vcf — applied to the DeepSomatic
output (query) only: drop rows whose FILTER is "RefCall", then rows
whose FILTER is "GERMLINE". -/
def fix_output_vcf (df : List VcfRow) : List VcfRow :=
  (df.filter (fun r => r.filter != "RefCall")).filter (fun r => r.filter != "GERMLINE")

/-- somatic_analysis.py, fix_ground_truth_vcf — applied to the ground
truth only: keep rows with POS in [MIN_REGION, MAX_REGION], then rows
whose #CHROM is in CHROMOSOMES. -/
def fix_ground_truth_vcf (df : List VcfRow) : List VcfRow :=
  (df.filter (fun r => decide (MIN_REGION ≤ r.pos) && decide (r.pos ≤ MAX_REGION))).filter
    (fun r => CHROMOSOMES.contains r.chrom)

/-- somatic_analysis.py, deepsomatic_scores — the VAF threshold filter
`t[t['VAF_VALUE'] >= VAF_THRESHOLD]`, applied to the already matched
tp/fn/fp tables (never to the inputs of the match). -/
def filter_vaf (vafs : List ℚ) : List ℚ :=
  vafs.filter (fun v => decide (VAF_THRESHOLD ≤ v))

/-! ## Alternate extractor (visualize_variants.py, get_variants) -/

/-- The fields of a pysam VariantRecord that get_variants reads. -/
structure PysamRecord where
  chrom : String
  pos : Int
  ref : String
  alts : List String
  filter : List String

/-- One iteration of the get_variants loop:
`if 'PASS' in record.filter or len(record.filter) == 0:
   variants.add((record.chrom, record.pos, record.ref, record.alts[0]))`. -/
def addVariant (variants : Finset VariantKey) (record : PysamRecord) : Finset VariantKey :=
  if record.filter.contains "PASS" || record.filter.length == 0 then
    insert (record.chrom, record.pos, record.ref, record.alts.headD "") variants
  else variants

/-- visualize_variants.py, get_variants over the records of the file. -/
def get_variants (records : List PysamRecord) : Finset VariantKey :=
  records.foldl addVariant ∅

/-! ## Theorems -/

/-- Shared helper: one record step bounds the growth of the accumulated
set of get_variants by one key. -/
theorem addVariant_card_le (s : Finset VariantKey) (r : PysamRecord) :
    (addVariant s r).card ≤ s.card + 1 := by
  unfold addVariant
  split
  · exact Finset.card_insert_le _ _
  · exact Nat.le_succ _

/-- Shared helper: the get_variants fold adds at most one key per record. -/
theorem foldl_addVariant_card (records : List PysamRecord) :
    ∀ s : Finset VariantKey, (records.foldl addVariant s).card ≤ s.card + records.length := by
  induction records with
  | nil => intro s; simp
  | cons r rest ih =>
    intro s
    calc ((r :: rest).foldl addVariant s).card = (rest.foldl addVariant (addVariant s r)).card := rfl
      _ ≤ (addVariant s r).card + rest.length := ih _
      _ ≤ (s.card + 1) + rest.length := Nat.add_le_add_right (addVariant_card_le s r) _
      _ = s.card + (r :: rest).length := by simp [List.length_cons]; omega

/-- C1: compare_variants returns true_positives = truth ∩ query,
false_positives = query \ truth and false_negatives = truth \ query,
comparing solely by VariantKey; with an empty truth set every query key
is a false positive, with an empty query set every truth key is a false
negative, and with both empty all three sets are empty. -/
theorem compare_variants_set_arithmetic (truth query : Finset VariantKey) (k : VariantKey) :
    (k ∈ (compare_variants truth query).true_positives ↔ k ∈ truth ∧ k ∈ query) ∧
    (k ∈ (compare_variants truth query).false_positives ↔ k ∈ query ∧ k ∉ truth) ∧
    (k ∈ (compare_variants truth query).false_negatives ↔ k ∈ truth ∧ k ∉ query) ∧
    compare_variants ∅ query = ⟨∅, query, ∅⟩ ∧
    compare_variants truth ∅ = ⟨∅, ∅, truth⟩ ∧
    compare_variants (∅ : Finset VariantKey) ∅ = ⟨∅, ∅, ∅⟩ := by
  refine ⟨?_, ?_, ?_, ?_, ?_, ?_⟩ <;>
    simp [compare_variants, Finset.mem_inter, Finset.mem_sdiff, ComparisonResult.mk.injEq]

/-- C2: for the key sets of any two record lists (duplicate keys with
differing auxiliary data included), true_positives ∪ false_positives is
the query key set, true_positives ∪ false_negatives is the truth key
set, the three sets are pairwise disjoint, and the two cardinality
identities |tp| + |fp| = |query| and |tp| + |fn| = |truth| hold. -/
theorem compare_variants_invariants (truthRecs queryRecs : List VariantRecord) :
    (compare_variants (keysOf truthRecs) (keysOf queryRecs)).true_positives ∪
        (compare_variants (keysOf truthRecs) (keysOf queryRecs)).false_positives =
      keysOf queryRecs ∧
    (compare_variants (keysOf truthRecs) (keysOf queryRecs)).true_positives ∪
        (compare_variants (keysOf truthRecs) (keysOf queryRecs)).false_negatives =
      keysOf truthRecs ∧
    Disjoint (compare_variants (keysOf truthRecs) (keysOf queryRecs)).true_positives
      (compare_variants (keysOf truthRecs) (keysOf queryRecs)).false_positives ∧
    Disjoint (compare_variants (keysOf truthRecs) (keysOf queryRecs)).true_positives
      (compare_variants (keysOf truthRecs) (keysOf queryRecs)).false_negatives ∧
    Disjoint (compare_variants (keysOf truthRecs) (keysOf queryRecs)).false_positives
      (compare_variants (keysOf truthRecs) (keysOf queryRecs)).false_negatives ∧
    (compare_variants (keysOf truthRecs) (keysOf queryRecs)).true_positives.card +
        (compare_variants (keysOf truthRecs) (keysOf queryRecs)).false_positives.card =
      (keysOf queryRecs).card ∧
    (compare_variants (keysOf truthRecs) (keysOf queryRecs)).true_positives.card +
        (compare_variants (keysOf truthRecs) (keysOf queryRecs)).false_negatives.card =
      (keysOf truthRecs).card := by
  set t := keysOf truthRecs
  set q := keysOf queryRecs
  simp only [compare_variants]
  have hq : t ∩ q ∪ q \ t = q := by
    rw [Finset.inter_comm, Finset.union_comm, Finset.sdiff_union_inter]
  have ht : t ∩ q ∪ t \ q = t := by
    rw [Finset.union_comm, Finset.sdiff_union_inter]
  have d1 : Disjoint (t ∩ q) (q \ t) := by
    simp [Finset.disjoint_left, Finset.mem_inter, Finset.mem_sdiff]
    tauto
  have d2 : Disjoint (t ∩ q) (t \ q) := by
    simp [Finset.disjoint_left, Finset.mem_inter, Finset.mem_sdiff]
    tauto
  have d3 : Disjoint (q \ t) (t \ q) := by
    simp [Finset.disjoint_left, Finset.mem_sdiff]
    tauto
  refine ⟨hq, ht, d1, d2, d3, ?_, ?_⟩
  · rw [← Finset.card_union_of_disjoint d1, hq]
  · rw [← Finset.card_union_of_disjoint d2, ht]

/-- C3: calculate_metrics returns precision = tp/(tp+fp) when tp+fp > 0
and exactly 0 otherwise, recall = tp/(tp+fn) when tp+fn > 0 and exactly
0 otherwise, f1 = 2·precision·recall/(precision+recall) when
precision+recall > 0 and exactly 0 otherwise, and in particular
calculate_metrics 0 0 0 = (0, 0, 0). -/
theorem calculate_metrics_spec (tp fp fn : ℕ) :
    (0 < tp + fp → (calculate_metrics tp fp fn).1 = (tp : ℚ) / ((tp : ℚ) + (fp : ℚ))) ∧
    (tp + fp = 0 → (calculate_metrics tp fp fn).1 = 0) ∧
    (0 < tp + fn → (calculate_metrics tp fp fn).2.1 = (tp : ℚ) / ((tp : ℚ) + (fn : ℚ))) ∧
    (tp + fn = 0 → (calculate_metrics tp fp fn).2.1 = 0) ∧
    (0 < (calculate_metrics tp fp fn).1 + (calculate_metrics tp fp fn).2.1 →
      (calculate_metrics tp fp fn).2.2 =
        2 * ((calculate_metrics tp fp fn).1 * (calculate_metrics tp fp fn).2.1) /
          ((calculate_metrics tp fp fn).1 + (calculate_metrics tp fp fn).2.1)) ∧
    ((calculate_metrics tp fp fn).1 + (calculate_metrics tp fp fn).2.1 = 0 →
      (calculate_metrics tp fp fn).2.2 = 0) ∧
    calculate_metrics 0 0 0 = (0, 0, 0) := by
  refine ⟨fun h => ?_, fun h => ?_, fun h => ?_, fun h => ?_, fun h => ?_, fun h => ?_,
    by norm_num [calculate_metrics]⟩
  · simp only [calculate_metrics, if_pos h]
  · simp only [calculate_metrics]
    rw [if_neg (by omega)]
  · simp only [calculate_metrics, if_pos h]
  · simp only [calculate_metrics]
    rw [if_neg (by omega)]
  · simp only [calculate_metrics] at h ⊢
    rw [if_pos h]
  · simp only [calculate_metrics] at h ⊢
    rw [if_neg (by rw [h]; exact lt_irrefl 0)]

/-- C3 witness: the theorem applied at tp = 1, fp = 1, fn = 0. -/
theorem calculate_metrics_spec_witness :
    (calculate_metrics 1 1 0).1 = ((1 : ℕ) : ℚ) / (((1 : ℕ) : ℚ) + ((1 : ℕ) : ℚ)) ∧
    (calculate_metrics 1 1 0).2.1 = ((1 : ℕ) : ℚ) / (((1 : ℕ) : ℚ) + ((0 : ℕ) : ℚ)) :=
  ⟨(calculate_metrics_spec 1 1 0).1 (by decide),
   (calculate_metrics_spec 1 1 0).2.2.1 (by decide)⟩

/-- Shared helper: the replace-all scan fixes any character list in
which "chr" does not occur. -/
theorem stripChrAux_of_no_chr (l : List Char) (h : containsChr l = false) :
    stripChrAux l = l := by
  induction l using stripChrAux.induct with
  | case1 rest ih => simp [containsChr] at h
  | case2 c rest hne ih =>
    rw [stripChrAux.eq_2 c rest hne, ih (by rw [← containsChr.eq_2 c rest hne]; exact h)]
  | case3 => rfl

/-- C6 counterexample: normalization is not idempotent — removing every
occurrence of "chr" from "cchrhr" yields "chr", which a second pass
removes entirely. -/
theorem normalize_chrom_not_idempotent :
    normalize_chrom (normalize_chrom "cchrhr") ≠ normalize_chrom "cchrhr" := by decide

/-- C6 amended: normalization is idempotent on every label whose
normalized form contains no occurrence of "chr"; it is not idempotent in
general, because removing every occurrence of "chr" can create a new
occurrence. -/
theorem normalize_chrom_idem_of_no_chr (x : String)
    (h : containsChr (stripChrAux x.data) = false) :
    normalize_chrom (normalize_chrom x) = normalize_chrom x := by
  show (⟨stripChrAux (stripChrAux x.data)⟩ : String) = ⟨stripChrAux x.data⟩
  rw [stripChrAux_of_no_chr _ h]

/-- C6 witness: the amended theorem applied at the label "chr1". -/
theorem normalize_chrom_idem_of_no_chr_witness :
    containsChr (stripChrAux "chr1".data) = false ∧
    normalize_chrom (normalize_chrom "chr1") = normalize_chrom "chr1" :=
  ⟨by decide, normalize_chrom_idem_of_no_chr "chr1" (by decide)⟩

/-- C7: normalize_chrom does make "chr1" and "1" agree, but it removes
"chr" everywhere, not only as a leading token — the label "1chr" does
not begin with the token and is still rewritten to "1", contradicting
the code's own comment "Remove 'chr' prefix if present". -/
theorem normalize_chrom_rewrites_beyond_start :
    normalize_chrom "chr1" = normalize_chrom "1" ∧
    normalize_chrom "1chr" = "1" ∧
    normalize_chrom "1chr" ≠ "1chr" := by decide

/-- C8: a data line with at least 5 tab-separated fields and a numeric
position emits exactly one VariantKey per comma-separated alternate in
the alternate field, all sharing the normalized chromosome, the
position and the reference allele. -/
theorem parseFields_multiallelic (c ps ids r a : String) (rest : List String) (pos : Int)
    (h : pyInt? ps = some pos) :
    ∃ l, parseFields ([c, ps, ids, r, a] ++ rest) = .ok l ∧
      l.length = (pySplit a ',').length ∧
      ∀ k ∈ l, k.1 = normalize_chrom c ∧ k.2.1 = pos ∧ k.2.2.1 = r := by
  have hlen : ¬ ([c, ps, ids, r, a] ++ rest).length < 5 := by
    simp [List.length_append]
  have hget : ([c, ps, ids, r, a] ++ rest).getD 1 "" = ps := rfl
  refine ⟨emitVariants ([c, ps, ids, r, a] ++ rest) pos, ?_, ?_, ?_⟩
  · rw [parseFields, if_neg hlen, hget, h]
  · simp [emitVariants]
  · intro k hk
    simp only [emitVariants, List.mem_map] at hk
    obtain ⟨alt, -, rfl⟩ := hk
    exact ⟨rfl, rfl, rfl⟩

/-- C8 witness: the theorem applied to a line whose alternate field is
"A,T", which emits exactly two keys. -/
theorem parseFields_multiallelic_witness :
    pyInt? "5" = some 5 ∧
    pySplit "A,T" ',' = ["A", "T"] ∧
    ∃ l, parseFields ["1", "5", ".", "G", "A,T"] = .ok l ∧ l.length = 2 := by
  obtain ⟨l, h1, h2, -⟩ :=
    parseFields_multiallelic "1" "5" "." "G" "A,T" [] 5 (by decide)
  exact ⟨by decide, by decide, l, by simpa using h1, by rw [h2]; decide⟩

/-- C9 counterexample: a data line whose position field is not numeric
is not tolerated by skipping — parse_vcf aborts with the embedded
ValueError of Python's int(). -/
theorem parse_vcf_aborts_on_bad_position :
    parse_vcf ["1\tX\t.\tA\tT"] = .error () := by decide

/-- C9 amended: lines beginning with '#' and lines with fewer than 5
tab-separated fields are skipped without error, but a data line whose
position field does not parse as an integer aborts the parse with an
uncaught error (nothing in the code raises a MalformedRecordError or
counts skipped lines). -/
theorem processLine_skip_and_abort (line : String) :
    (startsWithHash line = true → processLine line = .ok []) ∧
    (startsWithHash line = false → (pySplit (pyStrip line) '\t').length < 5 →
      processLine line = .ok []) ∧
    (startsWithHash line = false → ¬ (pySplit (pyStrip line) '\t').length < 5 →
      pyInt? ((pySplit (pyStrip line) '\t').getD 1 "") = none →
      processLine line = .error ()) := by
  refine ⟨fun h => ?_, fun h hl => ?_, fun h hl hp => ?_⟩
  · simp [processLine, h]
  · simp [processLine, h, parseFields, hl]
  · rw [processLine, if_neg (by simp [h]), parseFields, if_neg hl, hp]

/-- C9 witness: the amended theorem applied to a header line, a short
line and a data line with a non-numeric position. -/
theorem processLine_skip_and_abort_witness :
    processLine "#CHROM\tPOS" = .ok [] ∧
    processLine "1\t5" = .ok [] ∧
    processLine "1\tX\t.\tA\tT" = .error () :=
  ⟨(processLine_skip_and_abort "#CHROM\tPOS").1 (by decide),
   (processLine_skip_and_abort "1\t5").2.1 (by decide) (by decide),
   (processLine_skip_and_abort "1\tX\t.\tA\tT").2.2 (by decide) (by decide) (by decide)⟩

/-- C4 counterexample: at a record declaring format "GT:VAF" with
sample value "0/1:0.5", name lookup (the claim, modelled from the spec)
returns the token "0.5", while the code's fixed-index extraction for
the tp/fp tables raises (IndexError) instead of returning a value or
the 0.0 sentinel. -/
theorem vaf_extraction_not_by_name :
    vaf_by_name "GT:VAF" "0/1:0.5" "VAF" = "0.5" ∧
    vaf_token_output (some "0/1:0.5") = .error () := by decide

/-- C4 amended: the VAF used for threshold filtering is taken at a
fixed colon-token position — index 4 on the tp and fp tables, the last
token on the fn table — never by name lookup; a null cell yields the
0.0 sentinel, but a non-null tp/fp sample value with fewer than five
colon-separated components raises instead of returning 0.0. -/
theorem vaf_token_fixed_position (s : String) :
    vaf_token_output none = .ok "0.0" ∧
    vaf_token_truth none = .ok "0.0" ∧
    ((pySplit s ':').length ≤ 4 → vaf_token_output (some s) = .error ()) ∧
    (∀ t, (pySplit s ':').get? 4 = some t → vaf_token_output (some s) = .ok t) ∧
    vaf_token_truth (some s) = .ok ((pySplit s ':').getLastD "") := by
  refine ⟨rfl, rfl, fun h => ?_, fun t ht => ?_, rfl⟩
  · simp [vaf_token_output, List.getElem?_eq_none h]
  · rw [List.get?_eq_getElem?] at ht
    simp [vaf_token_output, ht]

/-- C4 witness: the amended theorem applied to a two-component and a
six-component sample value. -/
theorem vaf_token_fixed_position_witness :
    vaf_token_output (some "0/1:0.2") = .error () ∧
    vaf_token_output (some "0/0:32:98:95,3:0.0306122:0,32,41") = .ok "0.0306122" :=
  ⟨(vaf_token_fixed_position "0/1:0.2").2.2.1 (by decide),
   (vaf_token_fixed_position "0/0:32:98:95,3:0.0306122:0,32,41").2.2.2.1 "0.0306122" (by decide)⟩

/-- C5 counterexample: the filters are not applied identically to both
sides — a RefCall row inside the region on chr17 is dropped by the
query-side filter but kept by the truth-side filter. -/
theorem filters_not_applied_identically :
    fix_output_vcf [⟨"chr17", 6000000, "RefCall"⟩] ≠
      fix_ground_truth_vcf [⟨"chr17", 6000000, "RefCall"⟩] := by decide

/-- C5 amended: each filter function composes its own conditions as a
conjunction, but the sides differ: fix_output_vcf (query only) excludes
the FILTER labels "RefCall" and "GERMLINE", fix_ground_truth_vcf (truth
only) keeps rows inside [MIN_REGION, MAX_REGION] on an allowed
chromosome, and the VAF threshold keeps exactly the post-match values
that reach it. -/
theorem filter_stage_one_sided (df : List VcfRow) (vafs : List ℚ) (v : ℚ) :
    fix_output_vcf df =
      df.filter (fun r => decide (r.filter ≠ "RefCall" ∧ r.filter ≠ "GERMLINE")) ∧
    fix_ground_truth_vcf df =
      df.filter (fun r =>
        decide (MIN_REGION ≤ r.pos ∧ r.pos ≤ MAX_REGION ∧ r.chrom ∈ CHROMOSOMES)) ∧
    (v ∈ filter_vaf vafs ↔ v ∈ vafs ∧ VAF_THRESHOLD ≤ v) := by
  refine ⟨?_, ?_, ?_⟩
  · rw [fix_output_vcf, List.filter_filter]
    apply List.filter_congr
    intro r _
    by_cases h1 : r.filter = "RefCall" <;> by_cases h2 : r.filter = "GERMLINE" <;>
      simp [h1, h2, bne]
  · rw [fix_ground_truth_vcf, List.filter_filter]
    apply List.filter_congr
    intro r _
    by_cases h1 : MIN_REGION ≤ r.pos <;> by_cases h2 : r.pos ≤ MAX_REGION <;>
      by_cases h3 : r.chrom = "chr17" <;> simp [h1, h2, h3, CHROMOSOMES]
  · simp [filter_vaf, List.mem_filter]

/-- C10: get_variants adds at most one key per record; a record
contributes its key — built from the first alternate only, the
remaining alternates being dropped — exactly when its filter set
contains "PASS" or is empty, and contributes nothing otherwise. -/
theorem get_variants_first_alt_only (records : List PysamRecord) (r : PysamRecord)
    (rest : List String) :
    (get_variants records).card ≤ records.length ∧
    ("PASS" ∈ r.filter ∨ r.filter = [] →
      get_variants [r] = {(r.chrom, r.pos, r.ref, r.alts.headD "")}) ∧
    (¬ ("PASS" ∈ r.filter ∨ r.filter = []) → get_variants [r] = ∅) ∧
    get_variants [{ r with alts := r.alts.headD "" :: rest }] = get_variants [r] := by
  refine ⟨?_, fun h => ?_, fun h => ?_, ?_⟩
  · simpa using foldl_addVariant_card records ∅
  · show addVariant ∅ r = _
    have hc : (r.filter.contains "PASS" || r.filter.length == 0) = true := by
      simpa [List.contains, List.elem_iff, List.length_eq_zero] using h
    rw [addVariant, if_pos hc]
    rfl
  · show addVariant ∅ r = ∅
    have hc : ¬ (r.filter.contains "PASS" || r.filter.length == 0) = true := by
      simpa [List.contains, List.elem_iff, List.length_eq_zero] using h
    rw [addVariant, if_neg hc]
  · show addVariant ∅ { r with alts := r.alts.headD "" :: rest } = addVariant ∅ r
    simp [addVariant, List.headD]

/-- C10 witness: the theorem applied to a PASS record with alternates
["G", "T"] (one key, from "G" only) and to a record with a non-PASS
filter label (no key). -/
theorem get_variants_first_alt_only_witness :
    get_variants [⟨"chr1", 5, "A", ["G", "T"], ["PASS"]⟩] = {("chr1", 5, "A", "G")} ∧
    get_variants [⟨"chr1", 5, "A", ["G"], ["LowQual"]⟩] = ∅ :=
  ⟨(get_variants_first_alt_only [] ⟨"chr1", 5, "A", ["G", "T"], ["PASS"]⟩ []).2.1
      (Or.inl (by decide)),
   (get_variants_first_alt_only [] ⟨"chr1", 5, "A", ["G"], ["LowQual"]⟩ []).2.2.1 (by decide)⟩

end DeepGenetic
